import Mathlib

/-!
Shallow embedding of the file-identifier core
(src/core/src/file/cas/identifier.rs) and proofs about it.

The embedding follows the Rust source line by line:

* Store queries, the raw bulk insert, the per-record lookup and update, the
  filesystem metadata call and the digest routine are external collaborators;
  they are collected in an `Env` record of oracle functions over an abstract
  store state. A concrete relational-store instantiation (`storeEnv`) is
  given further below for concrete runs.
* Rust `Result` values become `Except`; an `.unwrap()` on an `Err` is a
  panic, which aborts the whole spawned worker and hence the job; panics are
  modelled by the distinguished error type `JobErr`.
* Machine integers (i32/i64 ids, sizes) are modelled as `Int`; the ids in
  play are small and no arithmetic that could overflow is performed on them.
* The job's `println!` logging has no observable effect on the store and is
  not modelled.
-/

/-- Raw query parameter values, as pushed into the bulk insert
(prisma `PrismaValue`). Only the two constructors the source uses. -/
inductive PrismaValue where
  | string (s : String)
  | int (n : Int)
deriving Repr, DecidableEq

/-- One row of the file_paths table (prisma `file_path::Data`), restricted to
the columns the identifier core reads or writes. -/
structure FilePathData where
  id : Int
  location_id : Int
  materialized_path : String
  is_dir : Bool
  file_id : Option Int
deriving Repr, DecidableEq

/-- Row shape returned by the bulk insert (struct `FileCreated`). -/
structure FileCreated where
  id : Int
  cas_id : String
deriving Repr, DecidableEq

/-- One row of the files table (prisma `file::Data`), restricted to the
columns the identifier core uses. -/
structure FileRec where
  id : Int
  cas_id : String
  size_in_bytes : Int
deriving Repr, DecidableEq

/-- A location row as consumed by the job: id plus nullable root path. -/
structure Location where
  id : Int
  path : Option String
deriving Repr, DecidableEq

/-- The job input (struct `FileIdentifierJob`). -/
structure FileIdentifierJob where
  location_id : Int
  path : String
deriving Repr, DecidableEq

/-- How a run of the job (or of one loop iteration) can fail. Each panic
constructor corresponds to one .unwrap() in the source; `jobError` is an
error propagated with the ? operator. -/
inductive JobErr where
  | jobError (msg : String)
  | fetchPanic (msg : String)
  | hashPanic (msg : String)
  | updatePanic (msg : String)
  | lastRowPanic
deriving Repr, DecidableEq

/-- External collaborators of the job, as oracle functions over an abstract
store state δ. Each field models one call the Rust source makes. -/
structure Env (δ : Type) where
  /-- get_location: load the location row. -/
  get_location : δ → Int → Except String Location
  /-- count_orphan_file_paths: raw COUNT of orphan (file_id IS NULL,
  non-directory) path rows of the location. -/
  count_orphan_file_paths : δ → Int → Except String Nat
  /-- get_orphan_file_paths: fetch up to 100 orphan path rows with
  id at or after the cursor, ascending by id. -/
  get_orphan_file_paths : δ → Int → Except String (List FilePathData)
  /-- The raw INSERT ... ON CONFLICT (cas_id) DO NOTHING RETURNING id, cas_id.
  Receives the flat parameter list and the page length (the source sizes the
  placeholder template by file_paths.len()), returns the newly created rows
  and the new store state. -/
  query_raw_insert : δ → List PrismaValue → Nat → Except String (List FileCreated × δ)
  /-- db.file().find_unique(file::cas_id::equals(..)). -/
  file_find_unique : δ → String → Except String (Option FileRec)
  /-- db.file_path().find_unique(id).update(file_path::file_id::set(..)). -/
  file_path_update : δ → Int → Option Int → Except String δ
  /-- fs::metadata, reduced to the byte length the core consumes. -/
  metadata : String → Except String Nat
  /-- Modelled from the spec: generate_cas_id lives in checksum.rs, which is
  not part of the sources here. Per the spec's Content Identifier contract it
  is a deterministic digest of path and declared size that fails with an I/O
  error if the file cannot be read. -/
  generate_cas_id : String → Nat → Except String String

/-- Rust Path::new(a).join(b) for the shapes the core produces
(relative materialized paths under a root, empty root allowed). -/
def joinPath (a b : String) : String :=
  if a = "" then b else a ++ "/" ++ b

/-- Rust String::truncate(16): keep the first 16 characters. -/
def truncate16 (s : String) : String :=
  String.mk (s.data.take 16)

/-- task_count = (total as f64 / 100).ceil() as usize. The float ceiling is
modelled as exact natural ceiling division; the two agree for every count
below 2 to the 45th or so, far beyond any real table size. -/
def taskCountOf (total : Nat) : Nat :=
  (total + 99) / 100

/-- Outcome of prepare_file_values for one record. -/
inductive PrepOut where
  /-- Ok((cas_id, [PrismaValue::String(cas_id), PrismaValue::Int(0)])). -/
  | ok (cas_id : String) (values : List PrismaValue)
  /-- The fs::metadata error returned early with the ? operator; the caller
  catches it and skips the record. -/
  | err (msg : String)
  /-- generate_cas_id(..).unwrap() panicked. -/
  | panicked (msg : String)
deriving Repr, DecidableEq

/-- prepare_file_values: join the root and materialized path, read metadata
(? on failure), digest non-directories (unwrap on failure) and truncate the
digest to 16 characters, return the cas id with the two insert parameters.
The size parameter is the literal 0 the source inserts. -/
def prepare_file_values {δ : Type} (E : Env δ) (location_path : String)
    (fp : FilePathData) : PrepOut :=
  match E.metadata (joinPath location_path fp.materialized_path) with
  | .error e => .err e
  | .ok len =>
    match (if !fp.is_dir then
        (E.generate_cas_id (joinPath location_path fp.materialized_path)
          len).map truncate16
      else .ok "") with
    | .error e => .panicked e
    | .ok cas_id => .ok cas_id [.string cas_id, .int 0]

/-- The Rust HashMap insert on an association list: replace the value of an
existing key in place, otherwise append. Iteration order of the model is
list order; no proved claim depends on the iteration order. -/
def hmInsert : List (Int × String) → Int → String → List (Int × String)
  | [], k, v => [(k, v)]
  | (k', v') :: rest, k, v =>
    if k' = k then (k, v) :: rest else (k', v') :: hmInsert rest k v

/-- The hashing pass over one page: for each record, prepare_file_values;
on Ok record the id to cas id mapping in the (job-scoped) lookup map and
extend the flat values list; on Err log and skip; a panic aborts. Returns
the updated lookup map and the accumulated values. -/
def hashPage {δ : Type} (E : Env δ) (location_path : String) :
    List FilePathData → List (Int × String) →
    Except String (List (Int × String) × List PrismaValue)
  | [], lookup => .ok (lookup, [])
  | fp :: rest, lookup =>
    match prepare_file_values E location_path fp with
    | .ok cas_id data =>
      (hashPage E location_path rest (hmInsert lookup fp.id cas_id)).map
        (fun p => (p.1, data ++ p.2))
    | .err _ => hashPage E location_path rest lookup
    | .panicked m => .error m

/-- The reconciliation loop over the accumulated lookup map: resolve each
cas id against the rows returned by the insert, falling back to
file_find_unique (skipping the entry when the fallback errors or finds
nothing), then run the unwrapped file_path update. Returns the store, the
updates performed in order, and the cas ids that went through the fallback
lookup; an update error is the unwrap panic and aborts. -/
def reconcile {δ : Type} (E : Env δ) (files : List FileCreated) (db : δ) :
    List (Int × String) → Except String (δ × List (Int × Int) × List String)
  | [] => .ok (db, [], [])
  | (file_path_id, cas_id) :: rest =>
    let resolved : Option Int × List String :=
      match files.find? (fun f => f.cas_id == cas_id) with
      | some f => (some f.id, [])
      | none =>
        match E.file_find_unique db cas_id with
        | .ok (some uf) => (some uf.id, [cas_id])
        | .ok none => (none, [cas_id])
        | .error _ => (none, [cas_id])
    match resolved with
    | (none, ls) =>
      (reconcile E files db rest).map
        (fun r => (r.1, r.2.1, ls ++ r.2.2))
    | (some file_id, ls) =>
      match E.file_path_update db file_path_id (some file_id) with
      | .error e => .error e
      | .ok db' =>
        (reconcile E files db' rest).map
          (fun r => (r.1, (file_path_id, file_id) :: r.2.1, ls ++ r.2.2))

/-- The mutable state threaded through the while loop: store handle, cursor,
and the job-scoped cas_id_lookup map (declared outside the loop in the
source, hence carried across iterations). -/
structure IterState (δ : Type) where
  db : δ
  cursor : Int
  lookup : List (Int × String)
deriving Repr

/-- Result of one iteration of the while loop body. -/
inductive IterResult (δ : Type) where
  /-- The values.len() == 0 break: the fetched page and the lookup map at
  the break. -/
  | broke (page : List FilePathData) (lookup : List (Int × String))
  /-- A full iteration: new state, the path updates performed, the cas ids
  sent to the fallback lookup, and the values handed to the bulk insert. -/
  | stepped (st : IterState δ) (updates : List (Int × Int))
      (lookups : List String) (inserted : List PrismaValue)
deriving Repr

/-- One iteration of the while loop body, mirroring the source order:
fetch page (unwrap), hash page, break on empty values, bulk insert with
unwrap_or_else to an empty row list, reconcile, take the last row (unwrap)
and advance the cursor. -/
def runIter {δ : Type} (E : Env δ) (location_path : String)
    (st : IterState δ) : Except JobErr (IterResult δ) :=
  match E.get_orphan_file_paths st.db st.cursor with
  | .error e => .error (.fetchPanic e)
  | .ok file_paths =>
    match hashPage E location_path file_paths st.lookup with
    | .error m => .error (.hashPanic m)
    | .ok (lookup', values) =>
      if values.isEmpty then .ok (.broke file_paths lookup')
      else
        let inserted : List FileCreated × δ :=
          match E.query_raw_insert st.db values file_paths.length with
          | .ok r => r
          | .error _ => ([], st.db)
        match reconcile E inserted.1 inserted.2 lookup' with
        | .error e => .error (.updatePanic e)
        | .ok (db₂, ups, lks) =>
          match file_paths.getLast? with
          | none => .error .lastRowPanic
          | some last_row =>
            .ok (.stepped ⟨db₂, last_row.id, lookup'⟩ ups lks values)

/-- Final state of the while loop, with the observables accumulated over
the run: every update performed, every insert batch attempted, the number
of completed iterations, and the page at the break if the loop broke. -/
structure RunEnd (δ : Type) where
  db : δ
  cursor : Int
  lookup : List (Int × String)
  updates : List (Int × Int)
  inserts : List (List PrismaValue)
  pages : Nat
  breakPage : Option (List FilePathData)
deriving Repr

/-- The while completed < task_count loop: fuel is task_count minus
completed, so completed equals the pages count. -/
def runLoop {δ : Type} (E : Env δ) (location_path : String) :
    Nat → IterState δ → List (Int × Int) → List (List PrismaValue) → Nat →
    Except JobErr (RunEnd δ)
  | 0, st, ups, ins, pg => .ok ⟨st.db, st.cursor, st.lookup, ups, ins, pg, none⟩
  | fuel + 1, st, ups, ins, pg =>
    match runIter E location_path st with
    | .error e => .error e
    | .ok (.broke page lookup') =>
      .ok ⟨st.db, st.cursor, lookup', ups, ins, pg, some page⟩
    | .ok (.stepped st' u _ i) =>
      runLoop E location_path fuel st' (ups ++ u) (ins ++ [i]) (pg + 1)

/-- The observable outcome of a whole job run. -/
structure JobOutput (δ : Type) where
  totalCount : Nat
  taskCount : Nat
  run : RunEnd δ
deriving Repr

/-- FileIdentifierJob::run: load the location (? on failure), count the
orphans (? on failure), derive the task count, run the worker loop from
cursor 1 with a fresh lookup map, and re-count the orphans (? on failure). -/
def FileIdentifierJob.run {δ : Type} (E : Env δ) (job : FileIdentifierJob)
    (db : δ) : Except JobErr (JobOutput δ) :=
  match E.get_location db job.location_id with
  | .error e => .error (.jobError e)
  | .ok location =>
    let location_path := location.path.getD ""
    match E.count_orphan_file_paths db location.id with
    | .error e => .error (.jobError e)
    | .ok total_count =>
      let task_count := taskCountOf total_count
      match runLoop E location_path task_count ⟨db, 1, []⟩ [] [] 0 with
      | .error e => .error e
      | .ok r =>
        match E.count_orphan_file_paths r.db location.id with
        | .error e => .error (.jobError e)
        | .ok _ => .ok ⟨total_count, task_count, r⟩

/-! ### A concrete relational store

An executable instantiation of the collaborators over an in-memory relational
state, for concrete runs of the job. The queries implement exactly the SQL
and prisma calls the source issues. -/

/-- The two tables plus the autoincrement counter of the files table. -/
structure Store where
  file_paths : List FilePathData
  files : List FileRec
  next_id : Int
deriving Repr, DecidableEq

/-- Insert one row into a list kept ascending by id (helper of the ORDER BY
id ASC evaluation). -/
def insertById (p : FilePathData) : List FilePathData → List FilePathData
  | [] => [p]
  | q :: rest => if p.id ≤ q.id then p :: q :: rest else q :: insertById p rest

/-- Evaluate ORDER BY id ASC over the table. -/
def sortById (l : List FilePathData) : List FilePathData :=
  l.foldr insertById []

/-- SELECT COUNT(*) FROM file_paths WHERE file_id IS NULL AND is_dir IS
FALSE AND location_id = loc. -/
def storeCountOrphans (st : Store) (location_id : Int) : Nat :=
  (st.file_paths.filter
    (fun p => p.file_id.isNone && !p.is_dir && p.location_id == location_id)).length

/-- The find_many of get_orphan_file_paths: file_id IS NULL, is_dir FALSE,
ordered ascending by id, from the cursor id inclusive, first 100. Note the
source query has no location_id filter; the model reproduces that. -/
def storeGetOrphans (st : Store) (cursor : Int) : List FilePathData :=
  ((sortById st.file_paths).filter
    (fun p => p.file_id.isNone && !p.is_dir && decide (cursor ≤ p.id))).take 100

/-- Group the flat raw-insert parameter list back into (cas_id, size) rows. -/
def parsePairs : List PrismaValue → Option (List (String × Int))
  | [] => some []
  | .string s :: .int z :: rest => (parsePairs rest).map (fun l => (s, z) :: l)
  | _ => none

/-- INSERT ... ON CONFLICT (cas_id) DO NOTHING RETURNING id, cas_id over the
parsed rows: a row whose cas_id already exists (including earlier in the same
statement) is skipped; the returned rows are only the newly created ones. -/
def insertNew (st : Store) : List (String × Int) → List FileCreated × Store
  | [] => ([], st)
  | (cas_id, z) :: rest =>
    if (st.files.find? (fun f => f.cas_id == cas_id)).isSome then
      insertNew st rest
    else
      let r := insertNew
        { st with files := st.files ++ [⟨st.next_id, cas_id, z⟩],
                  next_id := st.next_id + 1 } rest
      (⟨st.next_id, cas_id⟩ :: r.1, r.2)

/-- The raw bulk insert. The source builds the placeholder template from
file_paths.len() while binding only the accumulated values, so a page in
which some record failed to hash produces a parameter-count mismatch, which
the store rejects as an error (the batch-level error of the spec). -/
def storeInsertFiles (st : Store) (values : List PrismaValue) (npaths : Nat) :
    Except String (List FileCreated × Store) :=
  if values.length ≠ 2 * npaths then
    .error "parameter count does not match placeholder count"
  else
    match parsePairs values with
    | none => .error "malformed parameter list"
    | some rows => .ok (insertNew st rows)

/-- db.file().find_unique(file::cas_id::equals(..)): never errors on the
in-memory store. -/
def storeFileFindUnique (st : Store) (cas_id : String) :
    Except String (Option FileRec) :=
  .ok (st.files.find? (fun f => f.cas_id == cas_id))

/-- db.file_path().find_unique(id).update(..): errors when no row has the
id (prisma record-not-found), otherwise sets file_id on that row. -/
def storeFilePathUpdate (st : Store) (file_path_id : Int) (fid : Option Int) :
    Except String Store :=
  if (st.file_paths.find? (fun p => p.id == file_path_id)).isSome then
    .ok { st with
      file_paths := st.file_paths.map
        (fun p => if p.id == file_path_id then { p with file_id := fid } else p) }
  else
    .error "record to update not found"

/-- The collaborators over the concrete store, parametrized by the location
table (as a lookup function) and the two filesystem oracles. -/
def storeEnv (locs : Int → Except String Location)
    (meta : String → Except String Nat)
    (gen : String → Nat → Except String String) : Env Store where
  get_location := fun _ i => locs i
  count_orphan_file_paths := fun st i => .ok (storeCountOrphans st i)
  get_orphan_file_paths := fun st c => .ok (storeGetOrphans st c)
  query_raw_insert := fun st vs n => storeInsertFiles st vs n
  file_find_unique := fun st c => storeFileFindUnique st c
  file_path_update := fun st i f => storeFilePathUpdate st i f
  metadata := meta
  generate_cas_id := gen

/-! ### Concrete instances

Small concrete environments and stores used to evaluate the model on
explicit inputs. -/

/-- A one-location location table. -/
def exLocs : Int → Except String Location := fun i =>
  if i == 1 then .ok ⟨1, none⟩ else .error "location not found"

/-- A filesystem where every metadata call succeeds with length 0. -/
def exMeta : String → Except String Nat := fun _ => .ok 0

/-- A digest oracle that returns the path itself (deterministic, injective
on distinct paths, and shorter than 16 characters on the sample data). -/
def exGen : String → Nat → Except String String := fun p _ => .ok p

/-- A filesystem where every metadata call fails. -/
def exMetaFail : String → Except String Nat := fun _ => .error "io error"

/-- Concrete-store collaborators with the benign filesystem. -/
def exEnv : Env Store := storeEnv exLocs exMeta exGen

/-- Concrete-store collaborators where every metadata call fails. -/
def exEnvMetaFail : Env Store := storeEnv exLocs exMetaFail exGen

/-- A store with a single orphan path row. -/
def exStore1 : Store := ⟨[⟨1, 1, "f1", false, none⟩], [], 1⟩

/-- The (computed) output of the job over exStore1 with exEnv. -/
def exOut1 : JobOutput Store :=
  ⟨1, 1, ⟨⟨[⟨1, 1, "f1", false, some 1⟩], [⟨1, "f1", 0⟩], 2⟩, 1, [(1, "f1")],
    [(1, 1)], [[.string "f1", .int 0]], 1, none⟩⟩

/-- A store with 101 orphan path rows (ids 1 to 101), so the job needs two
pages. -/
def exStore101 : Store :=
  ⟨(List.range 101).map
    (fun i => ⟨(i : Int) + 1, 1, "f" ++ toString (i + 1), false, none⟩), [], 1⟩

/-- Does some first component occur twice in the list? -/
def dupFst : List (Int × Int) → Bool
  | [] => false
  | (k, _) :: rest => rest.any (fun q => q.1 == k) || dupFst rest

/-- The updates performed by a successful run (empty for a failed run). -/
def updatesOf : Except JobErr (JobOutput Store) → List (Int × Int)
  | .ok o => o.run.updates
  | .error _ => []

/-- Is this outcome the panic of last_row unwrap? -/
def isLastRowPanic {α : Type} : Except JobErr α → Bool
  | .error .lastRowPanic => true
  | _ => false

/-- Oracle collaborators over a unit store where one page holds a good
record and a record whose digest read fails after metadata succeeded. -/
def c1Env : Env Unit where
  get_location := fun _ _ => .ok ⟨1, none⟩
  count_orphan_file_paths := fun _ _ => .ok 2
  get_orphan_file_paths := fun _ _ =>
    .ok [⟨1, 1, "f1", false, none⟩, ⟨2, 1, "f2", false, none⟩]
  query_raw_insert := fun d _ _ => .ok ([], d)
  file_find_unique := fun _ _ => .ok none
  file_path_update := fun d _ _ => .ok d
  metadata := fun _ => .ok 0
  generate_cas_id := fun p _ =>
    if p == "f2" then .error "file vanished during read" else .ok p

/-- Oracle collaborators over a unit store where one page holds a good
record and a record whose metadata call fails, and every store operation
succeeds (lookups always find a row). -/
def c1wEnv : Env Unit where
  get_location := fun _ _ => .ok ⟨1, none⟩
  count_orphan_file_paths := fun _ _ => .ok 2
  get_orphan_file_paths := fun _ _ =>
    .ok [⟨1, 1, "f1", false, none⟩, ⟨2, 1, "bad", false, none⟩]
  query_raw_insert := fun d _ _ => .ok ([], d)
  file_find_unique := fun _ c => .ok (some ⟨9, c, 0⟩)
  file_path_update := fun d _ _ => .ok d
  metadata := fun p => if p == "bad" then .error "io error" else .ok 0
  generate_cas_id := fun p _ => .ok p

/-- Oracle collaborators over a unit store where the single path update
always fails. -/
def c3Env : Env Unit where
  get_location := fun _ _ => .ok ⟨1, none⟩
  count_orphan_file_paths := fun _ _ => .ok 1
  get_orphan_file_paths := fun _ _ => .ok [⟨1, 1, "f1", false, none⟩]
  query_raw_insert := fun d _ _ => .ok ([⟨1, "f1"⟩], d)
  file_find_unique := fun _ _ => .ok none
  file_path_update := fun _ _ _ => .error "update failed"
  metadata := fun _ => .ok 0
  generate_cas_id := fun p _ => .ok p

/-- Oracle collaborators over a unit store where the bulk insert always
fails (connectivity loss) and lookups find nothing. -/
def c5wEnv : Env Unit where
  get_location := fun _ _ => .ok ⟨1, none⟩
  count_orphan_file_paths := fun _ _ => .ok 1
  get_orphan_file_paths := fun _ _ => .ok [⟨1, 1, "f1", false, none⟩]
  query_raw_insert := fun _ _ _ => .error "connectivity lost"
  file_find_unique := fun _ _ => .ok none
  file_path_update := fun d _ _ => .ok d
  metadata := fun _ => .ok 0
  generate_cas_id := fun p _ => .ok p

/-- Oracle collaborators whose digest returns a 20-character identifier. -/
def c8Env : Env Unit where
  get_location := fun _ _ => .ok ⟨1, none⟩
  count_orphan_file_paths := fun _ _ => .ok 0
  get_orphan_file_paths := fun _ _ => .ok []
  query_raw_insert := fun d _ _ => .ok ([], d)
  file_find_unique := fun _ _ => .ok none
  file_path_update := fun d _ _ => .ok d
  metadata := fun _ => .ok 5
  generate_cas_id := fun _ _ => .ok "abcdefghijklmnopqrst"

/-- Oracle collaborators where every store operation succeeds and lookups
always find a row, with a one-record page. -/
def c2wEnv : Env Unit where
  get_location := fun _ _ => .ok ⟨1, none⟩
  count_orphan_file_paths := fun _ _ => .ok 1
  get_orphan_file_paths := fun _ _ => .ok [⟨1, 1, "f1", false, none⟩]
  query_raw_insert := fun d _ _ => .ok ([], d)
  file_find_unique := fun _ c => .ok (some ⟨9, c, 0⟩)
  file_path_update := fun d _ _ => .ok d
  metadata := fun _ => .ok 0
  generate_cas_id := fun p _ => .ok p

/-! ### Lemmas about the embedded operations -/

/-- prepare_file_values succeeded on a record. -/
def prepOk {δ : Type} (E : Env δ) (location_path : String)
    (fp : FilePathData) : Prop :=
  ∃ c d, prepare_file_values E location_path fp = .ok c d

/-- prepare_file_values did not hit the digest unwrap on a record. -/
def prepNoPanic {δ : Type} (E : Env δ) (location_path : String)
    (fp : FilePathData) : Prop :=
  ∀ m, prepare_file_values E location_path fp ≠ .panicked m

theorem hmInsert_keys (l : List (Int × String)) (k : Int) (v : String)
    (k' : Int) :
    k' ∈ (hmInsert l k v).map Prod.fst ↔ k' = k ∨ k' ∈ l.map Prod.fst := by
  induction l with
  | nil => simp [hmInsert]
  | cons hd tl ih =>
    obtain ⟨k₀, v₀⟩ := hd
    by_cases h : k₀ = k
    · subst h
      simp [hmInsert]
    · simp only [hmInsert, if_neg h, List.map_cons, List.mem_cons, ih]
      tauto

theorem prep_ok_shape {δ : Type} (E : Env δ) (lp : String)
    (fp : FilePathData) (c : String) (d : List PrismaValue)
    (h : prepare_file_values E lp fp = .ok c d) :
    d = [.string c, .int 0] := by
  unfold prepare_file_values at h
  split at h
  · exact absurd h (by simp)
  · split at h
    · exact absurd h (by simp)
    · simp only [PrepOut.ok.injEq] at h
      rw [← h.2, h.1]

theorem prepare_of_metadata_error {δ : Type} (E : Env δ) (lp : String)
    (fp : FilePathData) (e : String)
    (h : E.metadata (joinPath lp fp.materialized_path) = .error e) :
    prepare_file_values E lp fp = .err e := by
  unfold prepare_file_values
  rw [h]

theorem prepare_of_success {δ : Type} (E : Env δ) (lp : String)
    (fp : FilePathData) (n : Nat) (s : String)
    (hdir : fp.is_dir = false)
    (hm : E.metadata (joinPath lp fp.materialized_path) = .ok n)
    (hg : E.generate_cas_id (joinPath lp fp.materialized_path) n = .ok s) :
    prepare_file_values E lp fp =
      .ok (truncate16 s) [.string (truncate16 s), .int 0] := by
  unfold prepare_file_values
  rw [hm]
  simp [hdir, hg, Except.map]

theorem hashPage_nil {δ : Type} (E : Env δ) (lp : String)
    (lookup : List (Int × String)) :
    hashPage E lp [] lookup = .ok (lookup, []) := rfl

theorem hashPage_total {δ : Type} (E : Env δ) (lp : String)
    (page : List FilePathData)
    (h : ∀ fp ∈ page, prepNoPanic E lp fp) :
    ∀ lookup, ∃ l' vs, hashPage E lp page lookup = .ok (l', vs) := by
  induction page with
  | nil => intro lookup; exact ⟨lookup, [], rfl⟩
  | cons hd tl ih =>
    intro lookup
    have hhd := h hd (by simp)
    have htl := ih (fun fp hfp => h fp (by simp [hfp]))
    cases hp : prepare_file_values E lp hd with
    | ok c d =>
      obtain ⟨l', vs, hrec⟩ := htl (hmInsert lookup hd.id c)
      exact ⟨l', d ++ vs, by simp [hashPage, hp, hrec, Except.map]⟩
    | err m =>
      obtain ⟨l', vs, hrec⟩ := htl lookup
      exact ⟨l', vs, by simp [hashPage, hp, hrec]⟩
    | panicked m => exact absurd hp (hhd m)

theorem hashPage_keys {δ : Type} (E : Env δ) (lp : String)
    (page : List FilePathData) :
    ∀ (lookup l' : List (Int × String)) (vs : List PrismaValue),
      hashPage E lp page lookup = .ok (l', vs) →
      ∀ k, k ∈ l'.map Prod.fst ↔
        (k ∈ lookup.map Prod.fst ∨ ∃ fp ∈ page, fp.id = k ∧ prepOk E lp fp) := by
  induction page with
  | nil =>
    intro lookup l' vs h k
    rw [hashPage_nil] at h
    simp only [Except.ok.injEq, Prod.mk.injEq] at h
    rw [← h.1]
    simp
  | cons hd tl ih =>
    intro lookup l' vs h k
    cases hp : prepare_file_values E lp hd with
    | ok c d =>
      simp only [hashPage, hp] at h
      cases hrec : hashPage E lp tl (hmInsert lookup hd.id c) with
      | error e => rw [hrec] at h; exact absurd h (by simp [Except.map])
      | ok p =>
        obtain ⟨l'', vs''⟩ := p
        rw [hrec] at h
        simp only [Except.map, Except.ok.injEq, Prod.mk.injEq] at h
        rw [← h.1]
        rw [ih _ _ _ hrec k, hmInsert_keys]
        constructor
        · rintro ((rfl | hk) | ⟨fp, hfp, hid, hok⟩)
          · exact Or.inr ⟨hd, by simp, rfl, c, d, hp⟩
          · exact Or.inl hk
          · exact Or.inr ⟨fp, by simp [hfp], hid, hok⟩
        · rintro (hk | ⟨fp, hfp, hid, hok⟩)
          · exact Or.inl (Or.inr hk)
          · rcases List.mem_cons.mp hfp with rfl | hfp'
            · exact Or.inl (Or.inl hid.symm)
            · exact Or.inr ⟨fp, hfp', hid, hok⟩
    | err m =>
      simp only [hashPage, hp] at h
      rw [ih _ _ _ h k]
      constructor
      · rintro (hk | ⟨fp, hfp, hid, hok⟩)
        · exact Or.inl hk
        · exact Or.inr ⟨fp, by simp [hfp], hid, hok⟩
      · rintro (hk | ⟨fp, hfp, hid, hok⟩)
        · exact Or.inl hk
        · rcases List.mem_cons.mp hfp with rfl | hfp'
          · obtain ⟨c, d, hc⟩ := hok
            rw [hp] at hc
            exact absurd hc (by simp)
          · exact Or.inr ⟨fp, hfp', hid, hok⟩
    | panicked m =>
      simp only [hashPage, hp] at h
      exact absurd h (by simp)

theorem hashPage_values_ne_nil {δ : Type} (E : Env δ) (lp : String)
    (page : List FilePathData) :
    ∀ (lookup l' : List (Int × String)) (vs : List PrismaValue),
      hashPage E lp page lookup = .ok (l', vs) →
      (∃ fp ∈ page, prepOk E lp fp) → vs ≠ [] := by
  induction page with
  | nil =>
    intro lookup l' vs _ hex
    obtain ⟨fp, hfp, _⟩ := hex
    exact absurd hfp (by simp)
  | cons hd tl ih =>
    intro lookup l' vs h hex
    cases hp : prepare_file_values E lp hd with
    | ok c d =>
      simp only [hashPage, hp] at h
      cases hrec : hashPage E lp tl (hmInsert lookup hd.id c) with
      | error e => rw [hrec] at h; exact absurd h (by simp [Except.map])
      | ok p =>
        obtain ⟨l'', vs''⟩ := p
        rw [hrec] at h
        simp only [Except.map, Except.ok.injEq, Prod.mk.injEq] at h
        rw [← h.2]
        rw [prep_ok_shape E lp hd c d hp]
        simp
    | err m =>
      simp only [hashPage, hp] at h
      obtain ⟨fp, hfp, hok⟩ := hex
      rcases List.mem_cons.mp hfp with rfl | hfp'
      · obtain ⟨c, d, hc⟩ := hok
        rw [hp] at hc
        exact absurd hc (by simp)
      · exact ih _ _ _ h ⟨fp, hfp', hok⟩
    | panicked m =>
      simp only [hashPage, hp] at h
      exact absurd h (by simp)

theorem reconcile_covers {δ : Type} (E : Env δ) (files : List FileCreated)
    (hLk : ∀ d c, ∃ f, E.file_find_unique d c = .ok (some f))
    (hUp : ∀ d i v, ∃ d', E.file_path_update d i v = .ok d') :
    ∀ (lookup : List (Int × String)) (db : δ),
      ∃ db' ups lks, reconcile E files db lookup = .ok (db', ups, lks) ∧
        ups.map Prod.fst = lookup.map Prod.fst := by
  intro lookup
  induction lookup with
  | nil => intro db; exact ⟨db, [], [], rfl, rfl⟩
  | cons hd tl ih =>
    intro db
    obtain ⟨i, c⟩ := hd
    cases hf : files.find? (fun f => f.cas_id == c) with
    | some f =>
      obtain ⟨db1, hdb1⟩ := hUp db i (some f.id)
      obtain ⟨db', ups, lks, hrec, hkeys⟩ := ih db1
      refine ⟨db', (i, f.id) :: ups, lks, ?_, by simp [hkeys]⟩
      simp [reconcile, hf, hdb1, hrec, Except.map]
    | none =>
      obtain ⟨uf, huf⟩ := hLk db c
      obtain ⟨db1, hdb1⟩ := hUp db i (some uf.id)
      obtain ⟨db', ups, lks, hrec, hkeys⟩ := ih db1
      refine ⟨db', (i, uf.id) :: ups, c :: lks, ?_, by simp [hkeys]⟩
      simp [reconcile, hf, huf, hdb1, hrec, Except.map]

theorem reconcile_allfail {δ : Type} (E : Env δ) (db : δ)
    (hLk : ∀ c, E.file_find_unique db c = .ok none ∨
      ∃ m, E.file_find_unique db c = .error m) :
    ∀ lookup : List (Int × String),
      reconcile E [] db lookup = .ok (db, [], lookup.map Prod.snd) := by
  intro lookup
  induction lookup with
  | nil => rfl
  | cons hd tl ih =>
    obtain ⟨i, c⟩ := hd
    rcases hLk c with h | ⟨m, h⟩
    · simp [reconcile, h, ih, Except.map]
    · simp [reconcile, h, ih, Except.map]

theorem runLoop_pages {δ : Type} (E : Env δ) (lp : String) :
    ∀ (fuel : Nat) (st : IterState δ) (ups : List (Int × Int))
      (ins : List (List PrismaValue)) (pg : Nat) (r : RunEnd δ),
      runLoop E lp fuel st ups ins pg = .ok r → r.pages ≤ pg + fuel := by
  intro fuel
  induction fuel with
  | zero =>
    intro st ups ins pg r h
    simp only [runLoop, Except.ok.injEq] at h
    subst h
    simp
  | succ n ih =>
    intro st ups ins pg r h
    cases hit : runIter E lp st with
    | error e =>
      simp only [runLoop, hit] at h
      exact absurd h (by simp)
    | ok res =>
      cases res with
      | broke page lookup' =>
        simp only [runLoop, hit, Except.ok.injEq] at h
        subst h
        simp
      | stepped st' u l i =>
        simp only [runLoop, hit] at h
        have hr := ih st' (ups ++ u) (ins ++ [i]) (pg + 1) r h
        omega

/-! ### The claims -/

/-- C10: whenever the loop reaches the cursor-advance step the fetched page
is non-empty, so last().unwrap() cannot fail: a non-empty accumulated
values list implies the page held at least one record, and the loop breaks
before the cursor advance whenever the values list is empty. Formally, no
iteration of the loop body can ever produce the last-row panic. -/
theorem c10_last_row_unwrap_safe {δ : Type} (E : Env δ) (lp : String)
    (st : IterState δ) :
    isLastRowPanic (runIter E lp st) = false := by
  unfold runIter
  split
  · rfl
  · rename_i file_paths hfp
    split
    · rfl
    · rename_i lookup' values hh
      by_cases hemp : values.isEmpty
      · simp [hemp, isLastRowPanic]
      · simp only [hemp, if_false, Bool.false_eq_true]
        split
        · rfl
        · rename_i db₂ ups lks hrec
          split
          · rename_i hlast
            exfalso
            have hnil : file_paths = [] := List.getLast?_eq_none_iff.mp hlast
            subst hnil
            rw [hashPage_nil] at hh
            simp only [Except.ok.injEq, Prod.mk.injEq] at hh
            rw [← hh.2] at hemp
            exact hemp rfl
          · rfl

/-- C9: the worker loop always terminates after at most task_count
iterations: completed increases by one on every iteration that does not
break, and the loop runs only while completed is below task_count, so a
successful run has processed at most task_count pages, whatever the page
fetches returned. -/
theorem c9_loop_iterations_bounded {δ : Type} (E : Env δ)
    (job : FileIdentifierJob) (db : δ) (out : JobOutput δ)
    (h : FileIdentifierJob.run E job db = .ok out) :
    out.run.pages ≤ out.taskCount := by
  unfold FileIdentifierJob.run at h
  split at h
  · exact absurd h (by simp)
  · rename_i location hloc
    split at h
    · exact absurd h (by simp)
    · rename_i total htot
      dsimp only at h
      split at h
      · exact absurd h (by simp)
      · rename_i r hr
        split at h
        · exact absurd h (by simp)
        · rename_i n hcnt
          simp only [Except.ok.injEq] at h
          subst h
          simpa using runLoop_pages E (location.path.getD "")
            (taskCountOf total) ⟨db, 1, []⟩ [] [] 0 r hr

/-- Witness for C9 at a concrete one-page run. -/
theorem c9_witness : exOut1.run.pages ≤ exOut1.taskCount :=
  c9_loop_iterations_bounded exEnv ⟨1, ""⟩ exStore1 exOut1 rfl

/-- C8: for every non-directory path record whose identifier is computed,
the identifier returned by the digest collaborator is truncated to its
first 16 characters before being recorded: prepare_file_values yields the
truncation, whose characters are the first 16 of the returned identifier,
and the hashing pass records exactly that truncation in the lookup map and
the insert batch. -/
theorem c8_identifier_truncated {δ : Type} (E : Env δ) (lp : String)
    (fp : FilePathData) (n : Nat) (s : String)
    (hdir : fp.is_dir = false)
    (hm : E.metadata (joinPath lp fp.materialized_path) = .ok n)
    (hg : E.generate_cas_id (joinPath lp fp.materialized_path) n = .ok s) :
    prepare_file_values E lp fp =
      .ok (truncate16 s) [.string (truncate16 s), .int 0] ∧
    (truncate16 s).data = s.data.take 16 ∧
    (truncate16 s).length ≤ 16 ∧
    ∀ lookup, hashPage E lp [fp] lookup =
      .ok (hmInsert lookup fp.id (truncate16 s),
        [.string (truncate16 s), .int 0]) := by
  have hprep := prepare_of_success E lp fp n s hdir hm hg
  refine ⟨hprep, rfl, ?_, ?_⟩
  · show (String.mk (s.data.take 16)).length ≤ 16
    simp only [String.length]
    rw [List.length_take]
    exact Nat.min_le_left 16 s.data.length
  · intro lookup
    simp [hashPage, hprep, hashPage_nil, Except.map]

/-- Witness for C8: a 20-character digest is cut to its first 16
characters. -/
theorem c8_witness :
    prepare_file_values c8Env "" ⟨1, 1, "x", false, none⟩ =
      .ok "abcdefghijklmnop" [.string "abcdefghijklmnop", .int 0] := by
  have h := (c8_identifier_truncated c8Env "" ⟨1, 1, "x", false, none⟩ 5
    "abcdefghijklmnopqrst" rfl rfl rfl).1
  rw [show truncate16 "abcdefghijklmnopqrst" = "abcdefghijklmnop" from rfl] at h
  exact h

/-- C3 counterexample: the claim says a failing individual path update is
logged and the loop continues, never aborting the job; in the code the
update result is unwrapped, so a single failing update panics and the whole
job run fails. Concretely: one orphan record, insert succeeds, the update
errors, and the job returns the update panic instead of success. -/
theorem c3_counterexample :
    FileIdentifierJob.run c3Env ⟨1, ""⟩ () =
      .error (.updatePanic "update failed") := rfl

/-- C3 amended: a failure of the individual update that sets the path
record's content-record identifier is not caught: the reconciliation loop
stops at that entry and the error propagates as a panic that aborts the
batch and the job (only failures of the fallback content-record lookup are
logged and skipped). -/
theorem c3_update_failure_aborts {δ : Type} (E : Env δ)
    (files : List FileCreated) (db : δ) (i : Int) (c : String)
    (f : FileCreated) (rest : List (Int × String)) (e : String)
    (hfind : files.find? (fun fc => fc.cas_id == c) = some f)
    (hupd : E.file_path_update db i (some f.id) = .error e) :
    reconcile E files db ((i, c) :: rest) = .error e := by
  simp [reconcile, hfind, hupd]

/-- Witness for C3 at a concrete failing update. -/
theorem c3_witness :
    reconcile c3Env [⟨1, "f1"⟩] () [(1, "f1")] = .error "update failed" :=
  c3_update_failure_aborts c3Env [⟨1, "f1"⟩] () 1 "f1" ⟨1, "f1"⟩ [] "update failed"
    rfl rfl

/-- C4 counterexample: the claim says the loop terminates early only when a
fetched page is empty, and that a non-empty page with no usable identifier
merely skips the insert and proceeds. Concretely: a store with one orphan
record (task_count 1) and a filesystem where metadata always fails gives a
non-empty fetched page, no usable values, and the loop breaks at that page
having completed zero of its one task; the break page is the non-empty
page itself. -/
theorem c4_counterexample :
    FileIdentifierJob.run exEnvMetaFail ⟨1, ""⟩ exStore1 =
      .ok ⟨1, 1, ⟨exStore1, 1, [], [], [], 0, some [⟨1, 1, "f1", false, none⟩]⟩⟩ := rfl

/-- C4 amended: the loop terminates early exactly when the accumulated
values list is empty, which happens both for an empty page and for a
non-empty page in which no record produced a usable content identifier; in
the latter case the loop still breaks (it does not proceed to the next
iteration). -/
theorem c4_break_on_empty_values {δ : Type} (E : Env δ) (lp : String)
    (st : IterState δ) (page : List FilePathData)
    (l' : List (Int × String))
    (hfetch : E.get_orphan_file_paths st.db st.cursor = .ok page)
    (hhash : hashPage E lp page st.lookup = .ok (l', [])) :
    runIter E lp st = .ok (.broke page l') := by
  unfold runIter
  rw [hfetch]
  simp [hhash]

/-- Witness for C4 at a concrete non-empty all-failing page. -/
theorem c4_witness :
    runIter exEnvMetaFail "" ⟨exStore1, 1, []⟩ =
      .ok (.broke [⟨1, 1, "f1", false, none⟩] []) :=
  c4_break_on_empty_values exEnvMetaFail "" ⟨exStore1, 1, []⟩
    [⟨1, 1, "f1", false, none⟩] [] rfl rfl

/-- C5: when the bulk insert of a page's content records fails entirely,
the batch is treated as if it inserted nothing new: every accumulated
identifier goes through the fallback lookup-by-identifier (which, failing
or finding nothing, leaves every record unresolved with zero updates), and
the iteration still completes normally, advancing the cursor to the last
row of the page, so the job loop continues rather than failing. -/
theorem c5_insert_failure_fallback {δ : Type} (E : Env δ) (lp : String)
    (st : IterState δ) (page : List FilePathData)
    (l' : List (Int × String)) (vs : List PrismaValue) (e : String)
    (hfetch : E.get_orphan_file_paths st.db st.cursor = .ok page)
    (hhash : hashPage E lp page st.lookup = .ok (l', vs))
    (hvs : vs ≠ [])
    (hins : E.query_raw_insert st.db vs page.length = .error e)
    (hLk : ∀ c, E.file_find_unique st.db c = .ok none ∨
      ∃ m, E.file_find_unique st.db c = .error m) :
    ∃ last, page.getLast? = some last ∧
      runIter E lp st =
        .ok (.stepped ⟨st.db, last.id, l'⟩ [] (l'.map Prod.snd) vs) := by
  have hpage : page ≠ [] := by
    intro hnil
    subst hnil
    rw [hashPage_nil] at hhash
    simp only [Except.ok.injEq, Prod.mk.injEq] at hhash
    exact hvs hhash.2.symm
  have hlast := List.getLast?_eq_getLast_of_ne_nil hpage
  refine ⟨page.getLast hpage, hlast, ?_⟩
  have hrec := reconcile_allfail E st.db hLk l'
  unfold runIter
  rw [hfetch]
  simp [hhash, hvs, hins, hrec, hlast]

/-- Witness for C5 at a concrete failing insert with an accumulated entry
from an earlier page. -/
theorem c5_witness :
    ∃ last, [(⟨1, 1, "f1", false, none⟩ : FilePathData)].getLast? = some last ∧
      runIter c5wEnv "" ⟨(), 1, [(5, "old")]⟩ =
        .ok (.stepped ⟨(), last.id, [(5, "old"), (1, "f1")]⟩ []
          ["old", "f1"] [.string "f1", .int 0]) :=
  c5_insert_failure_fallback c5wEnv "" ⟨(), 1, [(5, "old")]⟩
    [⟨1, 1, "f1", false, none⟩] [(5, "old"), (1, "f1")]
    [.string "f1", .int 0] "connectivity lost" rfl rfl (by simp) rfl
    (fun _ => Or.inl rfl)

/-- C1 counterexample: the claim says that whenever the content-identifier
computation fails for one record of a page, the others are still resolved
and the job does not abort. The computation's failures split into the
metadata step (caught) and the digest read (unwrapped): if the one failing
record fails at the digest read, the worker panics while hashing and the
whole job aborts with no record of the page resolved. -/
theorem c1_counterexample :
    FileIdentifierJob.run c1Env ⟨1, ""⟩ () =
      .error (.hashPanic "file vanished during read") := rfl

/-- C1 amended: if the one failing record of a page fails at the metadata
step (the error the code catches: file deleted or unreadable before its
metadata is read) and the store collaborators accept the batch, resolve
identifiers and apply updates, then the iteration completes without
aborting, every other record of the page is resolved (its id receives an
update), and the failing record receives none; a failure at the digest-read
step instead panics and aborts the whole job. -/
theorem c1_metadata_failure_isolated {δ : Type} (E : Env δ) (lp : String)
    (db : δ) (cursor : Int) (pre post : List FilePathData)
    (bad : FilePathData) (e : String)
    (hfetch : E.get_orphan_file_paths db cursor = .ok (pre ++ bad :: post))
    (hbad : E.metadata (joinPath lp bad.materialized_path) = .error e)
    (hok : ∀ fp ∈ pre ++ post, prepOk E lp fp)
    (hbadid : bad.id ∉ (pre ++ post).map FilePathData.id)
    (hne : pre ++ post ≠ [])
    (hins : ∀ d vs n, ∃ out, E.query_raw_insert d vs n = .ok out)
    (hLk : ∀ d c, ∃ f, E.file_find_unique d c = .ok (some f))
    (hUp : ∀ d i v, ∃ d', E.file_path_update d i v = .ok d') :
    ∃ st' ups lks vs,
      runIter E lp ⟨db, cursor, []⟩ = .ok (.stepped st' ups lks vs) ∧
      (∀ fp ∈ pre ++ post, fp.id ∈ ups.map Prod.fst) ∧
      bad.id ∉ ups.map Prod.fst := by
  have hmem_of : ∀ fp ∈ pre ++ post, fp ∈ pre ++ bad :: post := by
    intro fp hfp
    rcases List.mem_append.mp hfp with h | h
    · exact List.mem_append.mpr (Or.inl h)
    · exact List.mem_append.mpr (Or.inr (List.mem_cons_of_mem _ h))
  have hprep_bad : prepare_file_values E lp bad = .err e :=
    prepare_of_metadata_error E lp bad e hbad
  have hnopanic : ∀ fp ∈ pre ++ bad :: post, prepNoPanic E lp fp := by
    intro fp hfp m
    rcases List.mem_append.mp hfp with h | h
    · obtain ⟨c, d, hc⟩ := hok fp (List.mem_append.mpr (Or.inl h))
      rw [hc]
      simp
    · rcases List.mem_cons.mp h with rfl | h'
      · rw [hprep_bad]
        simp
      · obtain ⟨c, d, hc⟩ := hok fp (List.mem_append.mpr (Or.inr h'))
        rw [hc]
        simp
  obtain ⟨l', vs, hhash⟩ := hashPage_total E lp (pre ++ bad :: post) hnopanic []
  have hvs : vs ≠ [] := by
    obtain ⟨fp0, hfp0⟩ := List.exists_mem_of_ne_nil (pre ++ post) hne
    exact hashPage_values_ne_nil E lp (pre ++ bad :: post) [] l' vs hhash
      ⟨fp0, hmem_of fp0 hfp0, hok fp0 hfp0⟩
  have hpagene : pre ++ bad :: post ≠ [] := by
    intro hcon
    have hb : bad ∈ pre ++ bad :: post :=
      List.mem_append.mpr (Or.inr (List.mem_cons_self _ _))
    rw [hcon] at hb
    exact absurd hb (List.not_mem_nil bad)
  have hlast := List.getLast?_eq_getLast_of_ne_nil hpagene
  obtain ⟨out, hinsEq⟩ := hins db vs (pre ++ bad :: post).length
  obtain ⟨files, db₁⟩ := out
  obtain ⟨db', ups, lks, hrec, hkeys⟩ := reconcile_covers E files hLk hUp l' db₁
  have hkeysmem := hashPage_keys E lp (pre ++ bad :: post) [] l' vs hhash
  refine ⟨⟨db', ((pre ++ bad :: post).getLast hpagene).id, l'⟩, ups, lks, vs,
    ?_, ?_, ?_⟩
  · unfold runIter
    rw [hfetch]
    simp only [List.length_append, List.length_cons] at hinsEq
    simp [hhash, hvs, hinsEq, hrec, hlast]
  · intro fp hfp
    rw [hkeys]
    exact (hkeysmem fp.id).mpr (Or.inr ⟨fp, hmem_of fp hfp, rfl, hok fp hfp⟩)
  · rw [hkeys]
    intro hbadin
    rcases (hkeysmem bad.id).mp hbadin with hin | ⟨fp, hfp, hid, hokfp⟩
    · simp at hin
    · rcases List.mem_append.mp hfp with h | h
      · exact hbadid (List.mem_map.mpr ⟨fp, List.mem_append.mpr (Or.inl h), hid⟩)
      · rcases List.mem_cons.mp h with rfl | h'
        · obtain ⟨c, d, hc⟩ := hokfp
          rw [hprep_bad] at hc
          exact absurd hc (by simp)
        · exact hbadid
            (List.mem_map.mpr ⟨fp, List.mem_append.mpr (Or.inr h'), hid⟩)

/-- Witness for C1 at a concrete two-record page whose second record fails
at the metadata step. -/
theorem c1_witness :
    ∃ st' ups lks vs,
      runIter c1wEnv "" ⟨(), 1, []⟩ = .ok (.stepped st' ups lks vs) ∧
      (∀ fp ∈ [(⟨1, 1, "f1", false, none⟩ : FilePathData)],
        fp.id ∈ ups.map Prod.fst) ∧
      (2 : Int) ∉ ups.map Prod.fst :=
  c1_metadata_failure_isolated c1wEnv "" () 1 [⟨1, 1, "f1", false, none⟩] []
    ⟨2, 1, "bad", false, none⟩ "io error" rfl rfl
    (by
      intro fp hfp
      simp only [List.mem_append, List.not_mem_nil, or_false,
        List.mem_singleton] at hfp
      subst hfp
      exact ⟨_, _, rfl⟩)
    (by decide) (by decide)
    (fun d vs n => ⟨([], d), rfl⟩)
    (fun d c => ⟨⟨9, c, 0⟩, rfl⟩)
    (fun d i v => ⟨d, rfl⟩)

/-- C2 counterexample: the claim says the path-id to identifier lookup
table is page-scoped, so each path record's content-record identifier is
written at most once per run. In the code the map is declared outside the
while loop and reconciliation iterates over all accumulated entries, so a
run over 101 orphans (two pages) re-runs the update for every record of
the first page while processing the second: some path id occurs twice in
the list of updates performed. -/
theorem c2_counterexample :
    dupFst (updatesOf (FileIdentifierJob.run exEnv ⟨1, ""⟩ exStore101)) = true := by
  set_option maxRecDepth 20000 in decide

/-- C2 amended: the lookup map is job-scoped, not page-scoped: hashing a
new page preserves every existing entry of the map, and reconciliation
performs one update per accumulated entry — including the entries recorded
while processing earlier pages of the same run, which are therefore
written again (with the identifier resolved anew) on every later page. -/
theorem c2_lookup_job_scoped {δ : Type} (E : Env δ) (lp : String)
    (files : List FileCreated) (db : δ) (lookup : List (Int × String))
    (hLk : ∀ d c, ∃ f, E.file_find_unique d c = .ok (some f))
    (hUp : ∀ d i v, ∃ d', E.file_path_update d i v = .ok d') :
    (∃ db' ups lks, reconcile E files db lookup = .ok (db', ups, lks) ∧
      ups.map Prod.fst = lookup.map Prod.fst) ∧
    (∀ page l' vs k, hashPage E lp page lookup = .ok (l', vs) →
      k ∈ lookup.map Prod.fst → k ∈ l'.map Prod.fst) := by
  refine ⟨reconcile_covers E files hLk hUp lookup db, ?_⟩
  intro page l' vs k hh hk
  exact (hashPage_keys E lp page lookup l' vs hh k).mpr (Or.inl hk)

/-- Witness for C2: an entry accumulated earlier survives hashing of a new
page and is updated again by reconciliation. -/
theorem c2_witness :
    (∃ db' ups lks,
      reconcile c2wEnv [] () [(5, "old")] = .ok (db', ups, lks) ∧
      ups.map Prod.fst = [(5, "old")].map Prod.fst) ∧
    (∀ page l' vs k,
      hashPage c2wEnv "" page [(5, "old")] = .ok (l', vs) →
      k ∈ [(5, "old")].map Prod.fst → k ∈ l'.map Prod.fst) :=
  c2_lookup_job_scoped c2wEnv "" [] () [(5, "old")]
    (fun _ c => ⟨⟨9, c, 0⟩, rfl⟩) (fun d _ _ => ⟨d, rfl⟩)

theorem run_of_zero_orphans (locs : Int → Except String Location)
    (meta : String → Except String Nat)
    (gen : String → Nat → Except String String)
    (job : FileIdentifierJob) (loc : Location) (st : Store)
    (hloc : locs job.location_id = .ok loc)
    (hz : storeCountOrphans st loc.id = 0) :
    FileIdentifierJob.run (storeEnv locs meta gen) job st =
      .ok ⟨0, 0, ⟨st, 1, [], [], [], 0, none⟩⟩ := by
  have h1 : (storeEnv locs meta gen).get_location st job.location_id = .ok loc :=
    hloc
  have h2 : (storeEnv locs meta gen).count_orphan_file_paths st loc.id = .ok 0 := by
    simp [storeEnv, hz]
  have h3 : taskCountOf 0 = 0 := by decide
  unfold FileIdentifierJob.run
  rw [h1]
  simp only [h2, h3, runLoop]

/-- C7: the task count equals the ceiling of the orphan count divided by
100 (the two inequalities pin the ceiling uniquely), and a location with
zero orphan paths yields task count 0 and a job that terminates
immediately: the store is returned unchanged with no updates, no insert
attempts and zero pages processed. -/
theorem c7_task_count (locs : Int → Except String Location)
    (meta : String → Except String Nat)
    (gen : String → Nat → Except String String)
    (job : FileIdentifierJob) (loc : Location) (st : Store) (total : Nat)
    (hloc : locs job.location_id = .ok loc)
    (hz : storeCountOrphans st loc.id = 0) :
    (100 * taskCountOf total < total + 100 ∧ total ≤ 100 * taskCountOf total) ∧
    FileIdentifierJob.run (storeEnv locs meta gen) job st =
      .ok ⟨0, 0, ⟨st, 1, [], [], [], 0, none⟩⟩ := by
  constructor
  · unfold taskCountOf
    have hdm := Nat.div_add_mod (total + 99) 100
    have hlt : (total + 99) % 100 < 100 := Nat.mod_lt _ (by omega)
    omega
  · exact run_of_zero_orphans locs meta gen job loc st hloc hz

/-- Witness for C7 at a concrete empty store. -/
theorem c7_witness :
    (100 * taskCountOf 250 < 250 + 100 ∧ 250 ≤ 100 * taskCountOf 250) ∧
    FileIdentifierJob.run exEnv ⟨1, ""⟩ ⟨[], [], 1⟩ =
      .ok ⟨0, 0, ⟨⟨[], [], 1⟩, 1, [], [], [], 0, none⟩⟩ :=
  c7_task_count exLocs exMeta exGen ⟨1, ""⟩ ⟨1, none⟩ ⟨[], [], 1⟩ 250 rfl rfl

/-- C6: if a first run of the job leaves the location with zero orphan
paths, then a second run over the unchanged store is a no-op that returns
success: the orphan count is zero, so the task count is zero, the loop
body never executes, the store (and hence every path-to-content
assignment) is exactly the one the first run produced, and the second run
performs zero content-record insertions and zero path updates. -/
theorem c6_second_run_noop (locs : Int → Except String Location)
    (meta : String → Except String Nat)
    (gen : String → Nat → Except String String)
    (job : FileIdentifierJob) (loc : Location) (st : Store)
    (r1 : JobOutput Store)
    (hloc : locs job.location_id = .ok loc)
    (_h1 : FileIdentifierJob.run (storeEnv locs meta gen) job st = .ok r1)
    (h2 : storeCountOrphans r1.run.db loc.id = 0) :
    FileIdentifierJob.run (storeEnv locs meta gen) job r1.run.db =
      .ok ⟨0, 0, ⟨r1.run.db, 1, [], [], [], 0, none⟩⟩ :=
  run_of_zero_orphans locs meta gen job loc r1.run.db hloc h2

/-- Witness for C6: a concrete first run resolves the single orphan, and
the second run is the proved no-op. -/
theorem c6_witness :
    FileIdentifierJob.run exEnv ⟨1, ""⟩ exOut1.run.db =
      .ok ⟨0, 0, ⟨exOut1.run.db, 1, [], [], [], 0, none⟩⟩ :=
  c6_second_run_noop exLocs exMeta exGen ⟨1, ""⟩ ⟨1, none⟩ exStore1 exOut1
    rfl rfl rfl
